import Mathlib

/-!
Verification of the in-memory user store and the `userById` input parser of a
tRPC tutorial template.

The store (`src/dist/server/db.js`) is a closure over a mutable array `users`
exposing three async operations:

  findMany : () => users
  findById : (id) => users.find((user) => user.id === id)
  create   : (data) => { const user = { id: String(users.length + 1), ...data };
                         users.push(user); return user; }

We embed the mutable array as explicit state passing: each operation takes the
current list of users and returns its result paired with the next state.
Because of the JavaScript spread `...data` placed after the `id` field, a
caller-supplied `id` inside `data` overrides the computed one; we model the
create input as a name plus an optional id to capture this faithfully.
`String(n)` on a natural number is decimal rendering, i.e. `Nat.repr`.

The `userById` procedure (README, server/index.ts) validates its raw input with
an input parser that accepts exactly strings and otherwise throws
`Invalid input: ${typeof val}` without running the handler; we embed raw
JavaScript values as an inductive type and the parser as an `Except`.
-/

/-- A stored user record: `type User = { id: string; name: string }`. -/
structure User where
  id : String
  name : String
deriving DecidableEq, Repr

/-- Input to `db.user.create`. The nominal input is `{ name: string }`; the
`id` component records a caller-supplied `id` property when present (`none`
when the input object has no `id` key), since the JS spread lets it through. -/
structure CreateData where
  name : String
  id : Option String := none
deriving DecidableEq, Repr

/-- `findMany: async () => users` — returns all users, state unchanged. -/
def db_findMany (users : List User) : List User × List User :=
  (users, users)

/-- `findById: async (id) => users.find((user) => user.id === id)` — first
user whose `id` equals the argument, or none; state unchanged. -/
def db_findById (users : List User) (id : String) : Option User × List User :=
  (users.find? (fun user => user.id == id), users)

/-- `create: async (data) => { const user = { id: String(users.length + 1),
...data }; users.push(user); return user; }` — the computed id is overridden
when `data` itself carries an `id`; the user is appended and returned. -/
def db_create (users : List User) (data : CreateData) : User × List User :=
  let user : User := { id := data.id.getD (Nat.repr (users.length + 1)), name := data.name }
  (user, users ++ [user])

/-- One call against the store (the result is discarded, only the state
evolution is kept). -/
inductive DBOp where
  | create (data : CreateData)
  | findMany
  | findById (id : String)
deriving DecidableEq, Repr

/-- State after one operation. -/
def runOp (users : List User) : DBOp → List User
  | .create data => (db_create users data).2
  | .findMany => (db_findMany users).2
  | .findById i => (db_findById users i).2

/-- State after a sequence of operations starting from the empty store. -/
def runOps (ops : List DBOp) : List User :=
  ops.foldl runOp []

/-- An operation whose create input carries no caller-supplied `id` key
(the shape `{ name: string }` produced by the `userCreate` input validator). -/
def DBOp.noClientId : DBOp → Bool
  | .create data => data.id.isNone
  | _ => true

/-- Raw JavaScript values as seen by an input parser, abstracted to the
shapes `typeof` distinguishes. -/
inductive JSValue where
  | str (s : String)
  | num (n : Int)
  | boolean (b : Bool)
  | null
  | undef
  | obj
deriving DecidableEq, Repr

/-- JavaScript `typeof` (note `typeof null === "object"`). -/
def jsTypeof : JSValue → String
  | .str _ => "string"
  | .num _ => "number"
  | .boolean _ => "boolean"
  | .null => "object"
  | .undef => "undefined"
  | .obj => "object"

/-- The `userById` input parser from the README:
`(val) => { if (typeof val === 'string') return val;
throw new Error(`Invalid input: ` + typeof val); }`. -/
def userById_input (val : JSValue) : Except String String :=
  match val with
  | .str s => .ok s
  | v => .error ("Invalid input: " ++ jsTypeof v)

/-- The validate-then-handle pipeline of a tRPC procedure with the `userById`
input parser: the handler runs only on parsed input. -/
def invokeUserById {α : Type} (handle : String → α) (val : JSValue) : Except String α :=
  match userById_input val with
  | .ok s => .ok (handle s)
  | .error e => .error e

/-- The `userById` handler: `db.user.findById(input)`. -/
def userById_handle (users : List User) (i : String) : Option User :=
  (db_findById users i).1

/-- C5: from the empty store, `create({name:"sachinraja"})` returns
`{id:"1", name:"sachinraja"}`; `findMany` then returns exactly that one-element
sequence; `findById("1")` returns it; `findById("999")` is absent. -/
theorem c5_end_to_end :
    (db_create [] { name := "sachinraja" }).1 = { id := "1", name := "sachinraja" } ∧
    (db_findMany (db_create [] { name := "sachinraja" }).2).1
      = [{ id := "1", name := "sachinraja" }] ∧
    (db_findById (db_create [] { name := "sachinraja" }).2 "1").1
      = some { id := "1", name := "sachinraja" } ∧
    (db_findById (db_create [] { name := "sachinraja" }).2 "999").1 = none := by
  decide

/-- C1 counterexample: with input data that itself carries an `id` ("42"), the
created user's id is not `String(length + 1)` (= "1" on the empty store). -/
theorem c1_counterexample :
    ¬ (db_create [] { name := "a", id := some "42" }).1.id
      = Nat.repr (([] : List User).length + 1) := by
  decide

/-- C1 (amended): when the input data carries no `id` key, `create` returns a
user whose id is the store's current length plus one, rendered in decimal. -/
theorem c1_create_assigns_length_succ (users : List User) (nm : String) :
    (db_create users { name := nm }).1.id = Nat.repr (users.length + 1) := rfl

/-- C9: when the input data itself contains an `id` field, the created and
stored user takes that id, not the computed `String(length + 1)`: the spread
`...data` after the `id` field silently overrides the assigned one. -/
theorem c9_client_id_overrides (users : List User) (nm i : String) :
    (db_create users { name := nm, id := some i }).1.id = i ∧
    (db_create users { name := nm, id := some i }).2
      = users ++ [{ id := i, name := nm }] :=
  ⟨rfl, rfl⟩

/-- C6: the query operations are side-effect-free: `findMany` and `findById`
return the store exactly unchanged. -/
theorem c6_queries_leave_store_unchanged (users : List User) (i : String) :
    (db_findMany users).2 = users ∧ (db_findById users i).2 = users :=
  ⟨rfl, rfl⟩

/-- `Array.prototype.find` scans left to right: on a concatenation whose left
part has no user with the sought id, the search continues in the right part. -/
theorem find?_id_append (l1 l2 : List User) (i : String)
    (h : ∀ v ∈ l1, v.id ≠ i) :
    (l1 ++ l2).find? (fun u => u.id == i) = l2.find? (fun u => u.id == i) := by
  induction l1 with
  | nil => rfl
  | cons v l1 ih =>
    have hv : ¬ (v.id == i) = true := by
      simpa using h v (List.mem_cons_self v l1)
    rw [List.cons_append, List.find?_cons_of_neg (p := fun u => u.id == i) (l1 ++ l2) hv]
    exact ih fun w hw => h w (List.mem_cons_of_mem v hw)

/-- C3: `findById(id)` returns a stored user whose id equals the argument when
one exists, and is absent exactly when no stored user has that id; in
particular `findById("999")` on a store holding only the user with id "1" is
absent. -/
theorem c3_findById_found_or_absent (users : List User) (i : String) :
    (∀ u, (db_findById users i).1 = some u → u ∈ users ∧ u.id = i) ∧
    ((db_findById users i).1 = none ↔ ∀ u ∈ users, u.id ≠ i) ∧
    (db_findById [{ id := "1", name := "sachinraja" }] "999").1 = none := by
  refine ⟨fun u hu => ?_, ?_, by decide⟩
  · have hmem := List.mem_of_find?_eq_some hu
    have hid := List.find?_some hu
    exact ⟨hmem, eq_of_beq hid⟩
  · simp [db_findById, List.find?_eq_none]

/-- C3 witness: the general theorem applied to the one-user store at id "1". -/
theorem c3_witness :
    ({ id := "1", name := "sachinraja" } : User)
        ∈ [({ id := "1", name := "sachinraja" } : User)] ∧
    ({ id := "1", name := "sachinraja" } : User).id = "1" :=
  (c3_findById_found_or_absent [{ id := "1", name := "sachinraja" }] "1").1
    { id := "1", name := "sachinraja" } (by decide)

/-- C7: `create` changes the store only by appending the returned user at the
end: the new store is the old one plus that user, the length grows by one, and
every previously stored user keeps its position. -/
theorem c7_create_appends_one (users : List User) (data : CreateData) :
    (db_create users data).2 = users ++ [(db_create users data).1] ∧
    (db_create users data).2.length = users.length + 1 ∧
    ∀ k, k < users.length → (db_create users data).2[k]? = users[k]? := by
  refine ⟨rfl, by simp [db_create], fun k hk => ?_⟩
  show (users ++ [_])[k]? = users[k]?
  rw [List.getElem?_append, if_pos hk]

/-- C7 witness: position 0 of a one-user store survives a `create`. -/
theorem c7_witness :
    (db_create [{ id := "1", name := "x" }] { name := "y" }).2[0]?
      = some { id := "1", name := "x" } := by
  have h := (c7_create_appends_one [{ id := "1", name := "x" }] { name := "y" }).2.2
    0 (by decide)
  rw [h]; rfl

/-- C10: when stored users share an id, `findById` returns the match occurring
earliest in the sequence: with no match before `u`, the result is `u` whatever
comes after it. -/
theorem c10_findById_first_match (l1 l2 : List User) (u : User) (i : String)
    (hu : u.id = i) (h : ∀ v ∈ l1, v.id ≠ i) :
    (db_findById (l1 ++ u :: l2) i).1 = some u := by
  show (l1 ++ u :: l2).find? (fun w => w.id == i) = some u
  rw [find?_id_append l1 (u :: l2) i h]
  exact List.find?_cons_of_pos l2 (by simpa using hu)

/-- C10 witness: with two users sharing id "7", the first-inserted one is
returned. -/
theorem c10_witness :
    (db_findById ([{ id := "1", name := "a" }]
        ++ ({ id := "7", name := "b" } : User) :: [{ id := "7", name := "c" }])
      "7").1 = some { id := "7", name := "b" } :=
  c10_findById_first_match [{ id := "1", name := "a" }] [{ id := "7", name := "c" }]
    { id := "7", name := "b" } "7" rfl (by decide)

/-- C4 counterexample: on the store `[{id:"2", name:"x"}]`, `create({name:"z"})`
returns the user `{id:"2", name:"z"}`, but `findById("2")` on the resulting
store returns the earlier `{id:"2", name:"x"}`, not the created user. -/
theorem c4_counterexample :
    ¬ (db_findById (db_create [{ id := "2", name := "x" }] { name := "z" }).2
        (db_create [{ id := "2", name := "x" }] { name := "z" }).1.id).1
      = some (db_create [{ id := "2", name := "x" }] { name := "z" }).1 := by
  decide

/-- C4 (amended): if `create(data)` returns `u` and no previously stored user
already had the id `u.id`, then `findById(u.id)` on the resulting store
returns exactly `u`. -/
theorem c4_create_findById_roundtrip (users : List User) (data : CreateData)
    (h : ∀ v ∈ users, v.id ≠ (db_create users data).1.id) :
    (db_findById (db_create users data).2 (db_create users data).1.id).1
      = some (db_create users data).1 := by
  show ((users ++ [(db_create users data).1]).find?
    (fun w => w.id == (db_create users data).1.id)) = some (db_create users data).1
  rw [find?_id_append users [(db_create users data).1] _ h]
  exact List.find?_cons_of_pos [] (by simp)

/-- C4 witness: the round trip on a store with one user and a fresh create. -/
theorem c4_witness :
    (db_findById (db_create [{ id := "1", name := "a" }] { name := "b" }).2
        (db_create [{ id := "1", name := "a" }] { name := "b" }).1.id).1
      = some (db_create [{ id := "1", name := "a" }] { name := "b" }).1 :=
  c4_create_findById_roundtrip [{ id := "1", name := "a" }] { name := "b" }
    (by decide)

/-- Numeric value of a decimal digit character. -/
def digitVal (c : Char) : Nat := c.toNat - '0'.toNat

/-- Value of a most-significant-first list of decimal digit characters. -/
def decDigitsVal : List Char → Nat
  | [] => 0
  | c :: cs => digitVal c * 10 ^ cs.length + decDigitsVal cs

theorem digitVal_digitChar (d : Nat) (h : d < 10) :
    digitVal (Nat.digitChar d) = d := by
  interval_cases d <;> decide

theorem decDigitsVal_snoc (cs : List Char) (c : Char) :
    decDigitsVal (cs ++ [c]) = 10 * decDigitsVal cs + digitVal c := by
  induction cs with
  | nil => simp [decDigitsVal]
  | cons d cs ih =>
    simp only [List.cons_append, List.append_eq, decDigitsVal, ih,
      List.length_append, List.length_cons, List.length_nil, pow_succ]
    ring

theorem toDigitsCore_acc (fuel : Nat) : ∀ (n : Nat) (ds : List Char),
    Nat.toDigitsCore 10 fuel n ds = Nat.toDigitsCore 10 fuel n [] ++ ds := by
  induction fuel with
  | zero => intro n ds; rfl
  | succ fuel ih =>
    intro n ds
    simp only [Nat.toDigitsCore]
    by_cases h : n / 10 = 0
    · simp [h]
    · rw [if_neg h, if_neg h, ih (n / 10) (Nat.digitChar (n % 10) :: ds),
        ih (n / 10) [Nat.digitChar (n % 10)], List.append_assoc, List.singleton_append]

theorem toDigitsCore_fuel (n : Nat) : ∀ (fuel1 fuel2 : Nat), n < fuel1 → n < fuel2 →
    Nat.toDigitsCore 10 fuel1 n [] = Nat.toDigitsCore 10 fuel2 n [] := by
  induction n using Nat.strong_induction_on with
  | _ n ih =>
    intro fuel1 fuel2 h1 h2
    match fuel1, fuel2 with
    | f1 + 1, f2 + 1 =>
      simp only [Nat.toDigitsCore]
      by_cases h : n / 10 = 0
      · rw [if_pos h, if_pos h]
      · have hn : 0 < n := by
          rcases Nat.eq_zero_or_pos n with h0 | h0
          · exact absurd (by simp [h0]) h
          · exact h0
        have hdiv : n / 10 < n := Nat.div_lt_self hn (by decide)
        rw [if_neg h, if_neg h, toDigitsCore_acc f1, toDigitsCore_acc f2,
          ih (n / 10) hdiv f1 f2 (by omega) (by omega)]

theorem decDigitsVal_toDigits (n : Nat) :
    decDigitsVal (Nat.toDigits 10 n) = n := by
  induction n using Nat.strong_induction_on with
  | _ n ih =>
    show decDigitsVal (Nat.toDigitsCore 10 (n + 1) n []) = n
    simp only [Nat.toDigitsCore]
    by_cases h : n / 10 = 0
    · rw [if_pos h]
      have hlt : n % 10 = n := by omega
      simp [decDigitsVal, hlt, digitVal_digitChar n (by omega)]
    · have hn : 0 < n := by
        rcases Nat.eq_zero_or_pos n with h0 | h0
        · exact absurd (by simp [h0]) h
        · exact h0
      have hdiv : n / 10 < n := Nat.div_lt_self hn (by decide)
      rw [if_neg h, toDigitsCore_acc n,
        toDigitsCore_fuel (n / 10) n (n / 10 + 1) (by omega) (by omega),
        decDigitsVal_snoc]
      have : decDigitsVal (Nat.toDigits 10 (n / 10)) = n / 10 := ih (n / 10) hdiv
      rw [show Nat.toDigitsCore 10 (n / 10 + 1) (n / 10) [] = Nat.toDigits 10 (n / 10) from rfl,
        this, digitVal_digitChar (n % 10) (by omega)]
      omega

theorem Nat_repr_injective : Function.Injective Nat.repr := by
  intro m n h
  have hd : Nat.toDigits 10 m = Nat.toDigits 10 n := congrArg String.data h
  calc m = decDigitsVal (Nat.toDigits 10 m) := (decDigitsVal_toDigits m).symm
    _ = decDigitsVal (Nat.toDigits 10 n) := by rw [hd]
    _ = n := decDigitsVal_toDigits n

/-- Invariant of stores reachable by creates without caller-supplied ids: the
stored ids are exactly "1", "2", ..., rendered from consecutive positions. -/
theorem foldl_runOp_ids : ∀ (ops : List DBOp) (s : List User),
    (∀ op ∈ ops, op.noClientId = true) →
    s.map (fun u => u.id) = (List.range s.length).map (fun k => Nat.repr (k + 1)) →
    (ops.foldl runOp s).map (fun u => u.id)
      = (List.range (ops.foldl runOp s).length).map (fun k => Nat.repr (k + 1))
  | [], _, _, hs => hs
  | op :: ops, s, h, hs => by
    rw [List.foldl_cons]
    refine foldl_runOp_ids ops (runOp s op)
      (fun o ho => h o (List.mem_cons_of_mem _ ho)) ?_
    have hop := h op (List.mem_cons_self _ _)
    cases op with
    | findMany => exact hs
    | findById i => exact hs
    | create data =>
      have hnone : data.id = none := by
        simpa [DBOp.noClientId, Option.isNone_iff_eq_none] using hop
      simp only [runOp, db_create, hnone, Option.getD_none, List.map_append,
        List.map_cons, List.map_nil, List.length_append, List.length_cons,
        List.length_nil, List.range_succ, hs]

theorem runOps_ids (ops : List DBOp) (h : ∀ op ∈ ops, op.noClientId = true) :
    (runOps ops).map (fun u => u.id)
      = (List.range (runOps ops).length).map (fun k => Nat.repr (k + 1)) :=
  foldl_runOp_ids ops [] h rfl

/-- C2 counterexample: a sequence of two creates whose data carries an `id`
key yields two stored users with the same id "1". -/
theorem c2_counterexample :
    ¬ ((runOps [DBOp.create { name := "a", id := some "1" },
        DBOp.create { name := "b", id := some "1" }]).map (fun u => u.id)).Nodup := by
  decide

/-- C2 (amended): after any sequence of create, findMany and findById calls
from the empty store in which no create input carries an `id` key, all stored
ids are pairwise distinct (`Nodup`), and a further such create returns an id
different from every stored user's id. -/
theorem c2_create_ids_unique (ops : List DBOp)
    (h : ∀ op ∈ ops, op.noClientId = true) :
    ((runOps ops).map (fun u => u.id)).Nodup ∧
    ∀ data : CreateData, data.id = none → ∀ u ∈ runOps ops,
      (db_create (runOps ops) data).1.id ≠ u.id := by
  have hids := runOps_ids ops h
  constructor
  · rw [hids]
    refine (List.nodup_range _).map ?_
    intro a b hab
    have := Nat_repr_injective hab
    omega
  · intro data hdata u hu heq
    have hmem : u.id ∈ (runOps ops).map (fun u => u.id) :=
      List.mem_map.mpr ⟨u, hu, rfl⟩
    rw [hids] at hmem
    obtain ⟨k, hk, hkeq⟩ := List.mem_map.mp hmem
    have hklt : k < (runOps ops).length := List.mem_range.mp hk
    have hnew : (db_create (runOps ops) data).1.id
        = Nat.repr ((runOps ops).length + 1) := by
      simp [db_create, hdata]
    rw [hnew, ← hkeq] at heq
    have := Nat_repr_injective heq
    omega

/-- C2 witness: a create followed by a findMany yields pairwise distinct ids. -/
theorem c2_witness :
    ((runOps [DBOp.create { name := "a" }, DBOp.findMany]).map
      (fun u => u.id)).Nodup :=
  (c2_create_ids_unique [DBOp.create { name := "a" }, DBOp.findMany]
    (by decide)).1

/-- C8: the `userById` input parser accepts exactly strings. A string input is
returned unchanged and the handler is invoked with it; a non-string input
fails with the validation error `Invalid input: ` followed by the value's
`typeof`, and the result does not depend on the handler (the handler is never
invoked). -/
theorem c8_userById_input_validation :
    (∀ (s : String) (handle : String → Option User),
      userById_input (.str s) = .ok s ∧
      invokeUserById handle (.str s) = .ok (handle s)) ∧
    (∀ v : JSValue, (∀ s, v ≠ .str s) →
      userById_input v = .error ("Invalid input: " ++ jsTypeof v) ∧
      ∀ (h1 h2 : String → Option User),
        invokeUserById h1 v = .error ("Invalid input: " ++ jsTypeof v) ∧
        invokeUserById h1 v = invokeUserById h2 v) := by
  refine ⟨fun s handle => ⟨rfl, rfl⟩, fun v hv => ?_⟩
  cases v with
  | str s => exact absurd rfl (hv s)
  | num n => exact ⟨rfl, fun h1 h2 => ⟨rfl, rfl⟩⟩
  | boolean b => exact ⟨rfl, fun h1 h2 => ⟨rfl, rfl⟩⟩
  | null => exact ⟨rfl, fun h1 h2 => ⟨rfl, rfl⟩⟩
  | undef => exact ⟨rfl, fun h1 h2 => ⟨rfl, rfl⟩⟩
  | obj => exact ⟨rfl, fun h1 h2 => ⟨rfl, rfl⟩⟩

/-- C8 witness: the string "1" parses to itself and is handed to the handler;
the number 42 yields the validation error `Invalid input: number` for the
actual `userById` handler over the empty store. -/
theorem c8_witness :
    invokeUserById (userById_handle []) (.str "1") = .ok (userById_handle [] "1") ∧
    invokeUserById (userById_handle []) (.num 42)
      = .error ("Invalid input: " ++ jsTypeof (.num 42)) :=
  ⟨(c8_userById_input_validation.1 "1" (userById_handle [])).2,
    ((c8_userById_input_validation.2 (.num 42) (fun _ h => JSValue.noConfusion h)).2
      (userById_handle []) (userById_handle [])).1⟩
